import Mathlib

/-!
Shallow embedding of the healthsites locality store
(`django_project/localities/views.py`, `django_project/localities/forms.py`,
`django_project/api/views.py`).

The data model (Domain, Specification, Changeset, Locality, Value) follows the
repository's models; the write pipeline, form validation and read projection are
translated from the three source files.  Functions of this repository that live in
modules not shipped here (`localities/models.py`, `localities/utils.py`,
`api/utils.py`, `localities/map_clustering.py`) are modelled from the spec and are
marked as such in their doc comments.
-/

deriving instance DecidableEq for Except

namespace Healthsites

/-! ## Association-list dictionaries (Python dict at the granularity we need) -/

/-- Lookup in an association list, first binding wins (Python `d.get(k)` on a dict
whose insertions are modelled by `dictInsert`). -/
def dictGet {α : Type} : List (String × α) → String → Option α
  | [], _ => none
  | kv :: rest, k => if kv.1 = k then some kv.2 else dictGet rest k

/-- Python `d[k] = v`: overwrite the binding in place if the key exists, else append. -/
def dictInsert {α : Type} (m : List (String × α)) (kv : String × α) : List (String × α) :=
  if m.any (fun e => decide (e.1 = kv.1)) then
    m.map (fun e => if e.1 = kv.1 then kv else e)
  else m ++ [kv]

/-! ## Python float parsing (boundary model)

`django.forms.FloatField` converts the submitted raw string with Python `float`
and rejects values that are not finite numbers; the spec's error taxonomy calls
this the "valid finite coordinate" check.  We model the float literal domain with
an explicit non-finite class so that finiteness rejection is visible. -/

inductive FloatLit : Type
  | finite : ℚ → FloatLit
  | nan : FloatLit
  | inf : Bool → FloatLit
deriving DecidableEq

def digitsNum (cs : List Char) : Nat :=
  cs.foldl (fun a c => a * 10 + (c.toNat - 48)) 0

def allDigits (cs : List Char) : Bool :=
  cs.all (fun c => c.isDigit)

/-- Unsigned decimal literal: digits, optionally with one decimal point; at least
one digit overall (Python accepts "1.", ".5", rejects ".", ""). -/
def parseUnsigned (cs : List Char) : Option ℚ :=
  let ip := cs.takeWhile (fun c => c != '.')
  let rest := cs.dropWhile (fun c => c != '.')
  match rest with
  | [] => if allDigits ip ∧ ip ≠ [] then some ((digitsNum ip : ℚ)) else none
  | _ :: frac =>
    if allDigits ip ∧ allDigits frac ∧ (ip ≠ [] ∨ frac ≠ []) then
      some ((digitsNum ip : ℚ) + (digitsNum frac : ℚ) / ((10 : ℚ) ^ frac.length))
    else none

def parseSigned (cs : List Char) : Option ℚ :=
  match cs with
  | '-' :: rest => (parseUnsigned rest).map (fun q => -q)
  | '+' :: rest => parseUnsigned rest
  | _ => parseUnsigned cs

def isSpaceChar (c : Char) : Bool :=
  c = ' ' ∨ c = '\t' ∨ c = '\n' ∨ c = '\r'

/-- Python `str.strip()` on a character list. -/
def trimChars (cs : List Char) : List Char :=
  ((cs.dropWhile isSpaceChar).reverse.dropWhile isSpaceChar).reverse

/-- ASCII lower-casing of one character. -/
def lowerChar (c : Char) : Char :=
  if 65 ≤ c.toNat ∧ c.toNat ≤ 90 then Char.ofNat (c.toNat + 32) else c

/-- Model of Python `float` on a character list: finite decimal literals plus
the special non-finite spellings, whitespace-insensitive and case-insensitive. -/
def pyFloatCore (cs : List Char) : Option FloatLit :=
  let t := trimChars (cs.map lowerChar)
  if t = "nan".toList ∨ t = "-nan".toList ∨ t = "+nan".toList then
    some FloatLit.nan
  else if t = "inf".toList ∨ t = "+inf".toList ∨ t = "infinity".toList ∨
      t = "+infinity".toList then
    some (FloatLit.inf false)
  else if t = "-inf".toList ∨ t = "-infinity".toList then some (FloatLit.inf true)
  else (parseSigned t).map FloatLit.finite

/-- Model of Python `float(s)` on form input. -/
def pyFloat (s : String) : Option FloatLit :=
  pyFloatCore s.toList

def finitePart : FloatLit → Option ℚ
  | FloatLit.finite q => some q
  | FloatLit.nan => none
  | FloatLit.inf _ => none

/-- The value a `FloatField` accepts: a parsed, finite float. -/
def pyFloatFinite (s : String) : Option ℚ :=
  (pyFloat s).bind finitePart

/-- Model of Python `int` on a character list: an optional sign followed by
decimal digits, surrounding whitespace ignored. -/
def pyIntCore (cs : List Char) : Option Int :=
  match trimChars cs with
  | '-' :: rest =>
    if allDigits rest ∧ rest ≠ [] then some (-(digitsNum rest : Int)) else none
  | '+' :: rest =>
    if allDigits rest ∧ rest ≠ [] then some ((digitsNum rest : Int)) else none
  | t => if allDigits t ∧ t ≠ [] then some ((digitsNum t : Int)) else none

/-- Model of Python `int(s)`. -/
def pyInt (s : String) : Option Int :=
  pyIntCore s.toList

/-- Python `s.split(',')` on a character list. -/
def splitComma : List Char → List (List Char)
  | [] => [[]]
  | c :: rest =>
    if c = ',' then [] :: splitComma rest
    else
      match splitComma rest with
      | [] => [[c]]
      | g :: gs => (c :: g) :: gs

/-! ## Data model -/

/-- `Specification`: binds one Attribute (its `key`) to a Domain with a
required flag (`localities/models.py`, spec section 3). -/
structure Specification : Type where
  attrKey : String
  required : Bool
deriving DecidableEq

/-- `Domain`: a named category owning a set of Specifications. -/
structure Domain : Type where
  name : String
  description : String
  template_fragment : String
  specs : List Specification
deriving DecidableEq

/-- `Changeset`: immutable audit row `{id, social_user}`. -/
structure Changeset : Type where
  id : Nat
  author : Option Nat
deriving DecidableEq

/-- A geometry point; the API transports it as two independent scalars. -/
structure Geom : Type where
  x : ℚ
  y : ℚ
deriving DecidableEq

/-- `Value`: the EAV row binding a Locality and a Specification (identified here
by its attribute key, unique per domain) to string data. -/
structure Value : Type where
  attrKey : String
  data : String
deriving DecidableEq

/-- `Locality`: identity, geometry, domain, current changeset reference, version
and owned value rows. -/
structure Locality : Type where
  uuid : String
  upstream_id : String
  domain : Domain
  geom : Geom
  changesetId : Nat
  version : Nat
  values : List Value
deriving DecidableEq

/-- The persisted store: the changeset ledger, the locality table and the next
changeset primary key. -/
structure Store : Type where
  changesets : List Changeset
  localities : List Locality
  nextChangesetId : Nat
deriving DecidableEq

/-! ## Errors (spec section 7 taxonomy) -/

inductive Err : Type
  | notFound : Err
  | validationFailed : List (String × String) → Err
  | writeFailed : Err
deriving DecidableEq

/-! ## Django form machinery as used by `forms.py`

`DomainForm` and `LocalityForm` declare `lon`/`lat` as `FloatField`s and add one
`CharField` per Specification at `__init__` time; Django's `Form.full_clean`
then validates each declared field against the submitted data.  Submitted keys
with no matching declared field are never consulted by `full_clean`. -/

inductive FieldKind : Type
  | floatNum : FieldKind
  | char : FieldKind
deriving DecidableEq

structure FormField : Type where
  name : String
  kind : FieldKind
  required : Bool
deriving DecidableEq

/-- `self.fields[name] = field`: dict-overwrite semantics on the form's field
dictionary. -/
def insertField (fs : List FormField) (f : FormField) : List FormField :=
  if fs.any (fun g => decide (g.name = f.name)) then
    fs.map (fun g => if g.name = f.name then f else g)
  else fs ++ [f]

/-- `DomainForm.__init__` (forms.py 46-57): start from the declared `lon`/`lat`
FloatFields, then add a CharField per specification, `required=spec.required`. -/
def domainFormFields (d : Domain) : List FormField :=
  d.specs.foldl
    (fun fs s => insertField fs ⟨s.attrKey, FieldKind.char, s.required⟩)
    [⟨"lon", FieldKind.floatNum, true⟩, ⟨"lat", FieldKind.floatNum, true⟩]

/-- `LocalityForm.__init__` (forms.py 71-99) builds the same field set from the
locality's own domain's specifications. -/
def localityFormFields (loc : Locality) : List FormField :=
  domainFormFields loc.domain

/-- A cleaned field value: FloatFields clean to numbers, CharFields to strings. -/
inductive CVal : Type
  | num : ℚ → CVal
  | str : String → CVal
deriving DecidableEq

/-- Clean one declared field against the submitted data (Django `Field.clean`):
a required field that is absent or empty fails with a `required` error; a
FloatField whose raw string is not a finite float fails with an `invalid` error;
an optional absent CharField cleans to the empty string. -/
def cleanField (data : List (String × String)) (f : FormField) :
    Except (String × String) (Option (String × CVal)) :=
  match dictGet data f.name with
  | none =>
    if f.required then Except.error (f.name, "required")
    else
      match f.kind with
      | FieldKind.char => Except.ok (some (f.name, CVal.str ""))
      | FieldKind.floatNum => Except.ok none
  | some s =>
    if s = "" then
      if f.required then Except.error (f.name, "required")
      else
        match f.kind with
        | FieldKind.char => Except.ok (some (f.name, CVal.str ""))
        | FieldKind.floatNum => Except.ok none
    else
      match f.kind with
      | FieldKind.char => Except.ok (some (f.name, CVal.str s))
      | FieldKind.floatNum =>
        match pyFloatFinite s with
        | some q => Except.ok (some (f.name, CVal.num q))
        | none => Except.error (f.name, "invalid")

/-- The per-field errors `Form.full_clean` collects. -/
def fieldErrs : List FormField → List (String × String) → List (String × String)
  | [], _ => []
  | f :: rest, data =>
    match cleanField data f with
    | Except.error e => e :: fieldErrs rest data
    | Except.ok _ => fieldErrs rest data

/-- The `cleaned_data` produced by the declared fields that cleaned successfully. -/
def fieldCleaned : List FormField → List (String × String) → List (String × CVal)
  | [], _ => []
  | f :: rest, data =>
    match cleanField data f with
    | Except.ok (some kv) => kv :: fieldCleaned rest data
    | _ => fieldCleaned rest data

/-- `form.is_valid()` / `form.cleaned_data`: valid iff no declared field errored;
submitted keys outside the declared fields are ignored. -/
def formClean (fields : List FormField) (data : List (String × String)) :
    Except (List (String × String)) (List (String × CVal)) :=
  match fieldErrs fields data with
  | [] => Except.ok (fieldCleaned fields data)
  | e :: es => Except.error (e :: es)

/-! ## Write pipeline -/

/-- Modelled from the spec: one step of `Locality.set_values`
(`localities/models.py`, not shipped in src/): update the existing Value row for
the key if one exists, else create it (spec section 4.3 step 5). -/
def upsertValue (vals : List Value) (kv : String × String) : List Value :=
  if vals.any (fun v => decide (v.attrKey = kv.1)) then
    vals.map (fun v => if v.attrKey = kv.1 then ⟨kv.1, kv.2⟩ else v)
  else vals ++ [⟨kv.1, kv.2⟩]

/-- Modelled from the spec: `Locality.set_values` over a cleaned key/value
mapping. -/
def setValues (vals : List Value) (cleaned : List (String × String)) : List Value :=
  cleaned.foldl upsertValue vals

/-- Saving a locality row: replace the row with the same uuid, else insert. -/
def saveLocality (locs : List Locality) (loc : Locality) : List Locality :=
  if locs.any (fun l => decide (l.uuid = loc.uuid)) then
    locs.map (fun l => if l.uuid = loc.uuid then loc else l)
  else locs ++ [loc]

/-- The cleaned data left after `form.cleaned_data.pop('lon')` and `pop('lat')`,
as the string mapping handed to `set_values`. -/
def charEntries : List (String × CVal) → List (String × String)
  | [] => []
  | kv :: rest =>
    if kv.1 = "lon" ∨ kv.1 = "lat" then charEntries rest
    else
      match kv.2 with
      | CVal.str s => (kv.1, s) :: charEntries rest
      | CVal.num _ => charEntries rest

/-- `form.cleaned_data.pop('lon')` (resp. `'lat'`) as a float. -/
def popNum (cleaned : List (String × CVal)) (k : String) : Option ℚ :=
  match dictGet cleaned k with
  | some (CVal.num q) => some q
  | _ => none

/-- Modelled from the spec: the dirty check behind `set_geom` plus
`tracker.changed()` (`localities/models.py`, not shipped in src/): compare the
proposed geometry against the persisted one (spec section 4.3 step 2). -/
def geomDirty (loc : Locality) (lon lat : ℚ) : Bool :=
  decide (¬ ((⟨lon, lat⟩ : Geom) = loc.geom))

/-- `LocalityUpdate.form_valid` (views.py 125-146): set the geometry, mint a new
Changeset bound to the acting user only when the tracker reports a change,
save, then `set_values` the remaining cleaned data.  Returns the updated store
and the saved locality. -/
def updateFormValid (st : Store) (loc : Locality) (lon lat : ℚ)
    (cleaned : List (String × String)) (user : Nat) : Store × Locality :=
  if geomDirty loc lon lat then
    let cs : Changeset := ⟨st.nextChangesetId, some user⟩
    let loc1 : Locality :=
      ⟨loc.uuid, loc.upstream_id, loc.domain, ⟨lon, lat⟩, cs.id, loc.version,
        setValues loc.values cleaned⟩
    (⟨st.changesets ++ [cs], saveLocality st.localities loc1,
      st.nextChangesetId + 1⟩, loc1)
  else
    let loc1 : Locality :=
      ⟨loc.uuid, loc.upstream_id, loc.domain, ⟨lon, lat⟩, loc.changesetId,
        loc.version, setValues loc.values cleaned⟩
    (⟨st.changesets, saveLocality st.localities loc1, st.nextChangesetId⟩, loc1)

/-! ## Create pipeline with the atomic transaction model

`LocalityCreate.form_valid` (views.py 182-208) performs, inside one
`transaction.atomic()` block, in source order: one Changeset insert, one
Locality insert, and one Value write per cleaned key.  We make the row writes
explicit and model `transaction.atomic` from the spec: either every write
applies, or — if some write faults — the store is rolled back to the
pre-operation state and `WriteFailed` surfaces (spec section 4.2 step 5). -/

inductive WriteOp : Type
  | writeChangeset : Changeset → WriteOp
  | writeLocality : Locality → WriteOp
  | writeValue : String → String → String → WriteOp
deriving DecidableEq

/-- Apply one successful row write to the store.  A Value write updates the
value set of the locality with the given uuid. -/
def applyWrite (st : Store) : WriteOp → Store
  | WriteOp.writeChangeset cs =>
    ⟨st.changesets ++ [cs], st.localities, st.nextChangesetId + 1⟩
  | WriteOp.writeLocality loc =>
    ⟨st.changesets, saveLocality st.localities loc, st.nextChangesetId⟩
  | WriteOp.writeValue u k dta =>
    ⟨st.changesets,
      st.localities.map (fun l =>
        if l.uuid = u then
          ⟨l.uuid, l.upstream_id, l.domain, l.geom, l.changesetId, l.version,
            upsertValue l.values (k, dta)⟩
        else l),
      st.nextChangesetId⟩

/-- Run the writes in order; `failAt = some k` makes the k-th write fault
(a storage fault or constraint violation), yielding no final state. -/
def runOpsFrom (st : Store) (ops : List WriteOp) (k : Nat) (failAt : Option Nat) :
    Option Store :=
  match ops with
  | [] => some st
  | op :: rest =>
    if failAt = some k then none
    else runOpsFrom (applyWrite st op) rest (k + 1) failAt

/-- Modelled from the spec: `transaction.atomic` — commit every write, or roll
back to the pre-operation store and surface `WriteFailed`. -/
def atomically (st : Store) (ops : List WriteOp) (failAt : Option Nat) :
    Store × Option Err :=
  match runOpsFrom st ops 0 failAt with
  | some st1 => (st1, none)
  | none => (st, some Err.writeFailed)

/-- The source-specific tag prepended to a freshly generated uuid to build
`upstream_id` (views.py 198). -/
def webTag : String := "webÂ¶"

/-- The row writes of `LocalityCreate.form_valid`, in source order.  `uuid` is
the freshly generated `uuid.uuid4().hex`; the new locality is born at version 1
referencing the new changeset (the version bookkeeping lives in
`localities/models.py`, modelled from the spec: version starts at 1). -/
def createWrites (st : Store) (d : Domain) (uuid : String) (lon lat : ℚ)
    (cleaned : List (String × String)) (user : Nat) : List WriteOp :=
  let cs : Changeset := ⟨st.nextChangesetId, some user⟩
  let loc : Locality :=
    ⟨uuid, webTag ++ uuid, d, ⟨lon, lat⟩, cs.id, 1, []⟩
  WriteOp.writeChangeset cs :: WriteOp.writeLocality loc ::
    cleaned.map (fun kv => WriteOp.writeValue uuid kv.1 kv.2)

/-- `LocalityCreate.form_valid` (views.py 182-208): run the writes atomically;
on success answer the new locality's identifier. -/
def createFormValid (st : Store) (d : Domain) (uuid : String) (lon lat : ℚ)
    (cleaned : List (String × String)) (user : Nat) (failAt : Option Nat) :
    Store × Except Err String :=
  match atomically st (createWrites st d uuid lon lat cleaned user) failAt with
  | (st1, none) => (st1, Except.ok uuid)
  | (st1, some e) => (st1, Except.error e)

/-! ## View entry points -/

/-- `LocalityCreate.get_object` (views.py 166-172): `queryset.filter(name=...)
.get()` — exactly one match, else `DoesNotExist` (NotFound) aborts the
operation. -/
def localityCreateGetObject (domains : List Domain) (name : String) :
    Except Err Domain :=
  match domains.filter (fun d => decide (d.name = name)) with
  | [d] => Except.ok d
  | _ => Except.error Err.notFound

/-- `LocalityCreate.post`: resolve the Domain, build and clean the form, and on
a valid form run `form_valid`.  A failed resolution or an invalid form leaves
the store untouched. -/
def localityCreatePost (st : Store) (domains : List Domain) (domainName : String)
    (data : List (String × String)) (uuid : String) (user : Nat)
    (failAt : Option Nat) : Store × Except Err String :=
  match localityCreateGetObject domains domainName with
  | Except.error e => (st, Except.error e)
  | Except.ok d =>
    match formClean (domainFormFields d) data with
    | Except.error errs => (st, Except.error (Err.validationFailed errs))
    | Except.ok cleaned =>
      match popNum cleaned "lon", popNum cleaned "lat" with
      | some lon, some lat =>
        createFormValid st d uuid lon lat (charEntries cleaned) user failAt
      | _, _ => (st, Except.error Err.writeFailed)

/-- `LocalityUpdate.post`: build and clean the form for the locality's domain,
and on a valid form run `form_valid`.  An invalid form leaves the store
untouched. -/
def localityUpdatePost (st : Store) (loc : Locality)
    (data : List (String × String)) (user : Nat) : Store × Except Err String :=
  match formClean (localityFormFields loc) data with
  | Except.error errs => (st, Except.error (Err.validationFailed errs))
  | Except.ok cleaned =>
    match popNum cleaned "lon", popNum cleaned "lat" with
    | some lon, some lat =>
      ((updateFormValid st loc lon lat (charEntries cleaned) user).1,
        Except.ok "OK")
    | _, _ => (st, Except.error Err.writeFailed)

/-! ## Template-fragment validation (forms.py 24-32)

`render_fragment` lives in `localities/utils.py` (not shipped in src/);
modelled from the spec as an injected capability: a function taking a template
and a context and returning rendered text or a structured error
(spec sections 4.5, 6, 9). -/

/-- A rendering collaborator: template and context in, rendered text or an
error message out. -/
def Renderer : Type := String → List (String × String) → Except String String

/-- `DomainModelForm.clean_template_fragment` (forms.py 24-32): compile the
fragment with an empty context; an exception becomes a validation error citing
the underlying message, a clean compile returns the fragment unchanged. -/
def clean_template_fragment (render : Renderer) (fragment : String) :
    Except String String :=
  match render fragment [] with
  | Except.ok _ => Except.ok fragment
  | Except.error e => Except.error ("Template Syntax Error: " ++ e)

/-! ## Bounding-box API read projection (api/views.py 30-47) -/

/-- A value in an API record row. -/
inductive APIVal : Type
  | s : String → APIVal
  | pt : Geom → APIVal
  | n : Nat → APIVal
  | uid : Option Nat → APIVal
deriving DecidableEq

/-- Modelled from the spec: `remap_dict` (`api/utils.py`, not shipped in src/):
a pure key-renaming transform — every key with an entry in the transform map is
replaced by its target name, values and the remaining keys untouched
(spec section 4.4). -/
def remap_dict (d : List (String × APIVal)) (transform : List (String × String)) :
    List (String × APIVal) :=
  d.map (fun kv =>
    match dictGet transform kv.1 with
    | some newKey => (newKey, kv.2)
    | none => kv)

/-- The author recorded on the changeset a locality currently references. -/
def changesetAuthor (st : Store) (cid : Nat) : Option Nat :=
  match st.changesets.find? (fun c => decide (c.id = cid)) with
  | some c => c.author
  | none => none

/-- One row of `Locality.objects...values('uuid', 'lnglat', 'version',
'changeset__social_user_id')` for a locality (api/views.py 36-45). -/
def localityAPIRow (st : Store) (loc : Locality) : List (String × APIVal) :=
  [("uuid", APIVal.s loc.uuid), ("lnglat", APIVal.pt loc.geom),
    ("version", APIVal.n loc.version),
    ("changeset__social_user_id", APIVal.uid (changesetAuthor st loc.changesetId))]

/-- The key-renaming map of `LocalitiesAPI.get` (api/views.py 33-35). -/
def apiRenameMap : List (String × String) :=
  [("changeset__social_user_id", "user_id")]

/-- `LocalitiesAPI.get` (api/views.py 30-47): the bounding-box collaborator
hands back the intersecting localities; each queried row is remapped. -/
def localitiesAPIGet (st : Store) (bboxLocs : List Locality) :
    List (List (String × APIVal)) :=
  bboxLocs.map (fun loc => remap_dict (localityAPIRow st loc) apiRenameMap)

/-! ## Clustered map layer (views.py 27-69) -/

/-- A rectangular region, as parsed from the `bbox` request parameter. -/
structure BBox : Type where
  minX : ℚ
  minY : ℚ
  maxX : ℚ
  maxY : ℚ
deriving DecidableEq

/-- Modelled from the spec: `parse_bbox` (`localities/utils.py`, not shipped in
src/): parse a comma-separated `minx,miny,maxx,maxy` string into the rectangle,
failing on malformed input. -/
def parse_bbox (s : String) : Option BBox :=
  match (splitComma s.toList).map (fun cs => (pyFloatCore cs).bind finitePart) with
  | [some a, some b, some c, some d] => some ⟨a, b, c, d⟩
  | _ => none

/-- `map(int, iconsize.split(','))` (views.py 47). -/
def parseIntList (s : String) : Option (List Int) :=
  (splitComma s.toList).mapM pyIntCore

/-- An HTTP GET request at the granularity the layer view consults: its query
parameters. -/
structure Request : Type where
  params : List (String × String)

/-- `LocalitiesLayer._parse_request_params` (views.py 34-60): all three
parameters must be present and parsable, the zoom must lie in [0, 20] and every
icon-size component must be non-negative; otherwise Http404. -/
def parseRequestParams (r : Request) : Option (BBox × Int × List Int) :=
  match dictGet r.params "bbox", dictGet r.params "zoom",
      dictGet r.params "iconsize" with
  | some b, some z, some i =>
    match parse_bbox b, pyInt z, parseIntList i with
    | some bbox, some zoom, some icon =>
      if zoom < 0 ∨ zoom > 20 then none
      else if icon.any (fun sz => sz < 0) then none
      else some (bbox, zoom, icon)
    | _, _, _ => none
  | _, _, _ => none

/-- `LocalitiesLayer.get` (views.py 62-69), parameterized by the clustering
collaborator (`map_clustering.cluster`, not shipped in src/; the spec keeps it
outside the core).  `Except.error 404` is the Http404 outcome. -/
def localitiesLayerGet (clusterFn : BBox → Int → List Int → List (ℚ × ℚ × Nat))
    (r : Request) : Except Nat (List (ℚ × ℚ × Nat)) :=
  match parseRequestParams r with
  | none => Except.error 404
  | some (b, z, i) => Except.ok (clusterFn b z i)

/-! ## Update-form initial data (forms.py 71-89) -/

/-- A value of the form's `initial` dictionary: the geometry coordinates go in
as numbers, the EAV rows as strings. -/
inductive InitVal : Type
  | num : ℚ → InitVal
  | str : String → InitVal
deriving DecidableEq

/-- `LocalityForm.__init__` initial data (forms.py 75-87): start from
`{lon: geom.x, lat: geom.y}`, then for each stored Value row insert
`attribute.key : value.data` with dict-overwrite semantics. -/
def localityFormInitial (loc : Locality) : List (String × InitVal) :=
  loc.values.foldl
    (fun m v => dictInsert m (v.attrKey, InitVal.str v.data))
    [("lon", InitVal.num loc.geom.x), ("lat", InitVal.num loc.geom.y)]

/-! ## Concrete rows used by witnesses and counterexamples -/

/-- A concrete domain: a required `name` attribute and an optional `beds` one. -/
def dEx : Domain :=
  ⟨"hospital", "clinics", "frag", [⟨"name", true⟩, ⟨"beds", false⟩]⟩

/-- An empty concrete store. -/
def stEx : Store := ⟨[], [], 0⟩

/-- A concrete persisted locality of `dEx` at geometry (1, 2). -/
def locEx : Locality :=
  ⟨"u0", "webÂ¶u0", dEx, ⟨1, 2⟩, 5, 1, [⟨"name", "Clinic A"⟩]⟩

/-- A domain whose specification set itself contains a `lon` attribute. -/
def dLon : Domain := ⟨"odd", "", "", [⟨"lon", true⟩]⟩

/-- A locality of `dLon` whose stored Value row is keyed `lon`. -/
def locLon : Locality := ⟨"u2", "webÂ¶u2", dLon, ⟨1, 2⟩, 0, 1, [⟨"lon", "99"⟩]⟩

/-! ## Dictionary lemmas -/

theorem dictGet_overwriteMap_same {α : Type} (m : List (String × α)) (k : String)
    (x : α) (hany : m.any (fun e => decide (e.1 = k)) = true) :
    dictGet (m.map (fun e => if e.1 = k then (k, x) else e)) k = some x := by
  induction m with
  | nil => simp at hany
  | cons e rest ih =>
    by_cases he : e.1 = k
    · simp [dictGet, he]
    · have hrest : rest.any (fun e => decide (e.1 = k)) = true := by
        simpa [he] using hany
      simp [dictGet, he, ih hrest]

theorem dictGet_overwriteMap_other {α : Type} (m : List (String × α))
    (k k2 : String) (x : α) (hk : k2 ≠ k) :
    dictGet (m.map (fun e => if e.1 = k then (k, x) else e)) k2 = dictGet m k2 := by
  induction m with
  | nil => rfl
  | cons e rest ih =>
    by_cases he : e.1 = k
    · simp [dictGet, he, Ne.symm hk, ih]
    · by_cases he2 : e.1 = k2 <;> simp [dictGet, he, he2, hk, ih]

theorem dictGet_append {α : Type} (m m2 : List (String × α)) (k : String) :
    dictGet (m ++ m2) k
      = match dictGet m k with
        | some v => some v
        | none => dictGet m2 k := by
  induction m with
  | nil => rfl
  | cons e rest ih =>
    by_cases he : e.1 = k <;> simp [dictGet, he, ih]

theorem dictGet_eq_none_of_not_any {α : Type} (m : List (String × α)) (k : String)
    (h : ¬ m.any (fun e => decide (e.1 = k)) = true) : dictGet m k = none := by
  induction m with
  | nil => rfl
  | cons e rest ih =>
    have he : ¬ e.1 = k := fun hc => h (by simp [hc])
    have hrest : ¬ rest.any (fun e => decide (e.1 = k)) = true :=
      fun hc => h (by simp [hc])
    simp [dictGet, he, ih hrest]

theorem dictGet_dictInsert {α : Type} (m : List (String × α)) (kv : String × α)
    (k2 : String) :
    dictGet (dictInsert m kv) k2 = if k2 = kv.1 then some kv.2 else dictGet m k2 := by
  obtain ⟨k, x⟩ := kv
  unfold dictInsert
  by_cases hany : m.any (fun e => decide (e.1 = k)) = true
  · rw [if_pos hany]
    by_cases hk : k2 = k
    · subst hk
      rw [if_pos rfl]
      exact dictGet_overwriteMap_same m k2 x hany
    · rw [if_neg hk]
      exact dictGet_overwriteMap_other m k k2 x hk
  · rw [if_neg hany, dictGet_append]
    by_cases hk : k2 = k
    · subst hk
      simp [dictGet_eq_none_of_not_any m k2 hany, dictGet]
    · cases hfind : dictGet m k2 with
      | none => simp [hfind, dictGet, Ne.symm hk, hk]
      | some v => simp [hfind, hk]

/-- Lookup of an untouched key is unchanged by a fold of inserts of other keys. -/
theorem dictGet_foldl_values (vs : List Value) (m : List (String × InitVal))
    (k : String) (h : ∀ v ∈ vs, v.attrKey ≠ k) :
    dictGet (vs.foldl (fun m v => dictInsert m (v.attrKey, InitVal.str v.data)) m) k
      = dictGet m k := by
  induction vs generalizing m with
  | nil => rfl
  | cons w rest ih =>
    have hw : w.attrKey ≠ k := h w (by simp)
    rw [List.foldl_cons, ih _ (fun v hv => h v (by simp [hv])),
      dictGet_dictInsert]
    simp [Ne.symm hw]

/-! ## Claim theorems -/

/-- C1: on update, a submitted geometry identical to the persisted one creates
no Changeset and keeps the locality's changeset reference; a differing geometry
appends exactly one new Changeset bound to the acting user and rebinds the
locality's reference to it. -/
theorem c1_update_changeset (st : Store) (loc : Locality) (lon lat : ℚ)
    (cleaned : List (String × String)) (user : Nat) :
    ((⟨lon, lat⟩ : Geom) = loc.geom →
      (updateFormValid st loc lon lat cleaned user).1.changesets = st.changesets ∧
      (updateFormValid st loc lon lat cleaned user).2.changesetId = loc.changesetId) ∧
    ((⟨lon, lat⟩ : Geom) ≠ loc.geom →
      (updateFormValid st loc lon lat cleaned user).1.changesets
        = st.changesets ++ [⟨st.nextChangesetId, some user⟩] ∧
      (updateFormValid st loc lon lat cleaned user).2.changesetId
        = st.nextChangesetId) := by
  unfold updateFormValid geomDirty
  by_cases h : (⟨lon, lat⟩ : Geom) = loc.geom <;> simp [h]

/-- C1 witness: at geometry (1, 2), the no-op update of `locEx` keeps the ledger
and the reference; moving to (3, 2) mints changeset 0 for user 7 and rebinds. -/
theorem c1_update_changeset_w :
    ((updateFormValid stEx locEx 1 2 [] 7).1.changesets = stEx.changesets ∧
      (updateFormValid stEx locEx 1 2 [] 7).2.changesetId = locEx.changesetId) ∧
    ((updateFormValid stEx locEx 3 2 [] 7).1.changesets
        = stEx.changesets ++ [⟨stEx.nextChangesetId, some 7⟩] ∧
      (updateFormValid stEx locEx 3 2 [] 7).2.changesetId = stEx.nextChangesetId) :=
  ⟨(c1_update_changeset stEx locEx 1 2 [] 7).1 (by decide),
    (c1_update_changeset stEx locEx 3 2 [] 7).2 (by decide)⟩

/-- C4: a create request naming a Domain that does not resolve returns NotFound
and performs no further processing: the store is untouched and no form handling
happens. -/
theorem c4_domain_not_found (st : Store) (domains : List Domain) (name : String)
    (data : List (String × String)) (uuid : String) (user : Nat)
    (failAt : Option Nat) (h : ∀ d ∈ domains, d.name ≠ name) :
    localityCreateGetObject domains name = Except.error Err.notFound ∧
    localityCreatePost st domains name data uuid user failAt
      = (st, Except.error Err.notFound) := by
  have hfilter : domains.filter (fun d => decide (d.name = name)) = [] := by
    rw [List.filter_eq_nil_iff]
    intro d hd
    simp [h d hd]
  constructor
  · unfold localityCreateGetObject
    rw [hfilter]
  · unfold localityCreatePost localityCreateGetObject
    rw [hfilter]

/-- C4 witness: a store with only the `hospital` domain answers NotFound for the
`school` domain and stays untouched. -/
theorem c4_domain_not_found_w :
    localityCreateGetObject [dEx] "school" = Except.error Err.notFound ∧
    localityCreatePost stEx [dEx] "school" [("lon", "1")] "u1" 7 none
      = (stEx, Except.error Err.notFound) :=
  c4_domain_not_found stEx [dEx] "school" [("lon", "1")] "u1" 7 none (by decide)

/-- C6: setting a Domain's template_fragment compiles it with an empty context;
a clean compile accepts the fragment unchanged, and a compilation error becomes
a validation error whose message names the underlying failure. -/
theorem c6_template_fragment (render : Renderer) (fragment : String) :
    (∀ t, render fragment [] = Except.ok t →
      clean_template_fragment render fragment = Except.ok fragment) ∧
    (∀ e, render fragment [] = Except.error e →
      clean_template_fragment render fragment
        = Except.error ("Template Syntax Error: " ++ e)) := by
  constructor
  · intro t h
    unfold clean_template_fragment
    rw [h]
  · intro e h
    unfold clean_template_fragment
    rw [h]

/-- C6 witness: a failing renderer turns fragment `frag` into a validation error
carrying its message, and a clean renderer accepts `frag` unchanged. -/
theorem c6_template_fragment_w :
    clean_template_fragment (fun _ _ => Except.error "bad token") "frag"
      = Except.error ("Template Syntax Error: " ++ "bad token") ∧
    clean_template_fragment (fun _ _ => Except.ok "") "frag" = Except.ok "frag" :=
  ⟨(c6_template_fragment (fun _ _ => Except.error "bad token") "frag").2
      "bad token" rfl,
    (c6_template_fragment (fun _ _ => Except.ok "") "frag").1 "" rfl⟩

/-- C7: every record of the bounding-box read projection is the queried row with
the single key `changeset__social_user_id` renamed to `user_id`: no value is
changed, no field is dropped, and each record carries uuid, geometry, version
and the changeset author. -/
theorem c7_api_remap (st : Store) (bboxLocs : List Locality) :
    localitiesAPIGet st bboxLocs = bboxLocs.map (fun loc =>
      [("uuid", APIVal.s loc.uuid), ("lnglat", APIVal.pt loc.geom),
        ("version", APIVal.n loc.version),
        ("user_id", APIVal.uid (changesetAuthor st loc.changesetId))]) := by
  unfold localitiesAPIGet
  apply List.map_congr_left
  intro loc _
  rfl

/-! ## Transaction lemmas -/

theorem runOpsFrom_none (ops : List WriteOp) (st : Store) (k : Nat) :
    runOpsFrom st ops k none = some (ops.foldl applyWrite st) := by
  induction ops generalizing st k with
  | nil => rfl
  | cons op rest ih =>
    rw [List.foldl_cons]
    unfold runOpsFrom
    simp [ih]

theorem runOpsFrom_fail (ops : List WriteOp) (st : Store) (k j : Nat)
    (h1 : k ≤ j) (h2 : j < k + ops.length) :
    runOpsFrom st ops k (some j) = none := by
  induction ops generalizing st k with
  | nil =>
    exfalso
    simp only [List.length_nil, Nat.add_zero] at h2
    omega
  | cons op rest ih =>
    unfold runOpsFrom
    by_cases hjk : j = k
    · subst hjk
      simp
    · have hne : ¬ (some j = some k) := by
        simp [hjk]
      rw [if_neg hne]
      apply ih
      · omega
      · simp only [List.length_cons] at h2
        omega

theorem foldl_applyWrite_values (cs : List Changeset) (nid : Nat)
    (A : List Locality) (loc : Locality) (cleaned : List (String × String))
    (hA : ∀ l ∈ A, l.uuid ≠ loc.uuid) :
    (cleaned.map (fun kv => WriteOp.writeValue loc.uuid kv.1 kv.2)).foldl
        applyWrite ⟨cs, A ++ [loc], nid⟩
      = ⟨cs, A ++ [⟨loc.uuid, loc.upstream_id, loc.domain, loc.geom,
          loc.changesetId, loc.version, setValues loc.values cleaned⟩], nid⟩ := by
  induction cleaned generalizing loc with
  | nil =>
    simp only [List.map_nil, List.foldl_nil]
    rfl
  | cons kv rest ih =>
    rw [List.map_cons, List.foldl_cons]
    have hstep : applyWrite ⟨cs, A ++ [loc], nid⟩
        (WriteOp.writeValue loc.uuid kv.1 kv.2)
        = ⟨cs, A ++ [⟨loc.uuid, loc.upstream_id, loc.domain, loc.geom,
            loc.changesetId, loc.version, upsertValue loc.values kv⟩], nid⟩ := by
      simp only [applyWrite]
      congr 1
      rw [List.map_append]
      congr 1
      · have : ∀ l ∈ A,
            (if l.uuid = loc.uuid then
              (⟨l.uuid, l.upstream_id, l.domain, l.geom, l.changesetId,
                l.version, upsertValue l.values (kv.1, kv.2)⟩ : Locality)
            else l) = l := by
          intro l hl
          rw [if_neg (hA l hl)]
        rw [List.map_congr_left this]
        simp
      · simp
    rw [hstep]
    exact ih ⟨loc.uuid, loc.upstream_id, loc.domain, loc.geom, loc.changesetId,
      loc.version, upsertValue loc.values kv⟩ hA

/-- The committed store a successful create produces: one appended changeset
bound to the user, one appended locality carrying the derived upstream id at
version 1, and one value row per cleaned key. -/
theorem createFormValid_success (st : Store) (d : Domain) (uuid : String)
    (lon lat : ℚ) (cleaned : List (String × String)) (user : Nat)
    (hfresh : ∀ l ∈ st.localities, l.uuid ≠ uuid) :
    createFormValid st d uuid lon lat cleaned user none
      = (⟨st.changesets ++ [⟨st.nextChangesetId, some user⟩],
          st.localities ++ [⟨uuid, webTag ++ uuid, d, ⟨lon, lat⟩,
            st.nextChangesetId, 1, setValues [] cleaned⟩],
          st.nextChangesetId + 1⟩, Except.ok uuid) := by
  unfold createFormValid atomically createWrites
  rw [runOpsFrom_none, List.foldl_cons, List.foldl_cons]
  have h1 : applyWrite st (WriteOp.writeChangeset ⟨st.nextChangesetId, some user⟩)
      = ⟨st.changesets ++ [⟨st.nextChangesetId, some user⟩], st.localities,
        st.nextChangesetId + 1⟩ := rfl
  rw [h1]
  have hany : ¬ (st.localities.any
      (fun l => decide (l.uuid = (⟨uuid, webTag ++ uuid, d, ⟨lon, lat⟩,
        st.nextChangesetId, 1, []⟩ : Locality).uuid)) = true) := by
    simp only [List.any_eq_true, decide_eq_true_eq, not_exists, not_and]
    intro l hl
    exact hfresh l hl
  have hsave : saveLocality st.localities
      ⟨uuid, webTag ++ uuid, d, ⟨lon, lat⟩, st.nextChangesetId, 1, []⟩
      = st.localities
        ++ [⟨uuid, webTag ++ uuid, d, ⟨lon, lat⟩, st.nextChangesetId, 1, []⟩] := by
    unfold saveLocality
    rw [if_neg hany]
  have h2 : applyWrite
      ⟨st.changesets ++ [⟨st.nextChangesetId, some user⟩], st.localities,
        st.nextChangesetId + 1⟩
      (WriteOp.writeLocality
        ⟨uuid, webTag ++ uuid, d, ⟨lon, lat⟩, st.nextChangesetId, 1, []⟩)
      = ⟨st.changesets ++ [⟨st.nextChangesetId, some user⟩],
          st.localities
            ++ [⟨uuid, webTag ++ uuid, d, ⟨lon, lat⟩, st.nextChangesetId, 1, []⟩],
          st.nextChangesetId + 1⟩ := by
    simp only [applyWrite]
    rw [hsave]
  rw [h2, foldl_applyWrite_values _ _ _ _ _ hfresh]

/-- C2: the create writes (Changeset, Locality, each Value) form one atomic
transaction: a fault at any write rolls the store back to the pre-operation
state and surfaces WriteFailed, while the fault-free run commits every write
and returns the new locality's identifier. -/
theorem c2_create_atomic (st : Store) (d : Domain) (uuid : String) (lon lat : ℚ)
    (cleaned : List (String × String)) (user : Nat)
    (hfresh : ∀ l ∈ st.localities, l.uuid ≠ uuid) :
    (∀ k, k < 2 + cleaned.length →
      createFormValid st d uuid lon lat cleaned user (some k)
        = (st, Except.error Err.writeFailed)) ∧
    createFormValid st d uuid lon lat cleaned user none
      = (⟨st.changesets ++ [⟨st.nextChangesetId, some user⟩],
          st.localities ++ [⟨uuid, webTag ++ uuid, d, ⟨lon, lat⟩,
            st.nextChangesetId, 1, setValues [] cleaned⟩],
          st.nextChangesetId + 1⟩, Except.ok uuid) := by
  constructor
  · intro k hk
    unfold createFormValid atomically
    rw [runOpsFrom_fail]
    · exact Nat.zero_le k
    · unfold createWrites
      simp only [List.length_cons, List.length_map, Nat.zero_add]
      omega
  · exact createFormValid_success st d uuid lon lat cleaned user hfresh

/-- C2 witness: creating `u1` in the empty store commits the changeset, the
locality and its value row when no write faults, and leaves the store exactly
empty (with WriteFailed surfaced) when any of the three writes faults. -/
theorem c2_create_atomic_w :
    (createFormValid stEx dEx "u1" 1 2 [("name", "A")] 7 (some 0)
        = (stEx, Except.error Err.writeFailed) ∧
      createFormValid stEx dEx "u1" 1 2 [("name", "A")] 7 (some 1)
        = (stEx, Except.error Err.writeFailed) ∧
      createFormValid stEx dEx "u1" 1 2 [("name", "A")] 7 (some 2)
        = (stEx, Except.error Err.writeFailed)) ∧
    createFormValid stEx dEx "u1" 1 2 [("name", "A")] 7 none
      = (⟨stEx.changesets ++ [⟨stEx.nextChangesetId, some 7⟩],
          stEx.localities ++ [⟨"u1", webTag ++ "u1", dEx, ⟨1, 2⟩,
            stEx.nextChangesetId, 1, setValues [] [("name", "A")]⟩],
          stEx.nextChangesetId + 1⟩, Except.ok "u1") := by
  have h := c2_create_atomic stEx dEx "u1" 1 2 [("name", "A")] 7 (by decide)
  exact ⟨⟨h.1 0 (by decide), h.1 1 (by decide), h.1 2 (by decide)⟩, h.2⟩

/-- C5: a successful create persists the locality under the freshly generated
uuid with `upstream_id` equal to the source tag `webÂ¶` prepended to that uuid,
and such a tagged id differs from every identifier that does not start with the
tag (imported, externally-sourced ids carry other sources' prefixes). -/
theorem c5_upstream_id (st : Store) (d : Domain) (uuid : String) (lon lat : ℚ)
    (cleaned : List (String × String)) (user : Nat)
    (hfresh : ∀ l ∈ st.localities, l.uuid ≠ uuid) :
    (createFormValid st d uuid lon lat cleaned user none).1.localities
      = st.localities ++ [⟨uuid, webTag ++ uuid, d, ⟨lon, lat⟩,
          st.nextChangesetId, 1, setValues [] cleaned⟩] ∧
    (∀ ext : String, (∀ s : String, ext ≠ webTag ++ s) → webTag ++ uuid ≠ ext) := by
  constructor
  · rw [createFormValid_success st d uuid lon lat cleaned user hfresh]
  · intro ext hext hc
    exact hext uuid hc.symm

/-- C5 witness: creating `u1` in the empty store stores `upstream_id =
webÂ¶u1`, which differs from the untagged external id `node123`. -/
theorem c5_upstream_id_w :
    (createFormValid stEx dEx "u1" 1 2 [] 7 none).1.localities
      = stEx.localities ++ [⟨"u1", webTag ++ "u1", dEx, ⟨1, 2⟩,
          stEx.nextChangesetId, 1, setValues [] []⟩] ∧
    webTag ++ "u1" ≠ "node123" := by
  have h := c5_upstream_id stEx dEx "u1" 1 2 [] 7 (by decide)
  refine ⟨h.1, h.2 "node123" ?_⟩
  intro s hc
  have hd : "node123".data = (webTag ++ s).data := by rw [hc]
  rw [String.data_append] at hd
  simp [webTag] at hd

/-! ## Update-form initial data lemmas -/

theorem dictGet_foldl_values_mem (vs : List Value) (m : List (String × InitVal))
    (hnodup : (vs.map Value.attrKey).Nodup) (v : Value) (hv : v ∈ vs) :
    dictGet (vs.foldl (fun m v => dictInsert m (v.attrKey, InitVal.str v.data)) m)
        v.attrKey
      = some (InitVal.str v.data) := by
  induction vs generalizing m with
  | nil => cases hv
  | cons w rest ih =>
    rw [List.map_cons, List.nodup_cons] at hnodup
    rw [List.foldl_cons]
    rcases List.mem_cons.mp hv with hv | hv
    · subst hv
      have hrest : ∀ u ∈ rest, u.attrKey ≠ v.attrKey := by
        intro u hu hc
        exact hnodup.1 (hc ▸ List.mem_map_of_mem Value.attrKey hu)
      rw [dictGet_foldl_values rest _ _ hrest, dictGet_dictInsert]
      simp
    · exact ih _ hnodup.2 hv

/-- C10 counterexample: for a locality with a stored Value keyed `lon`, the
update form's initial data binds `lon` to that Value's string, not to the
stored geometry's x coordinate. -/
theorem c10_initial_prefill_cex :
    dictGet (localityFormInitial locLon) "lon" ≠ some (InitVal.num locLon.geom.x) ∧
    dictGet (localityFormInitial locLon) "lon" = some (InitVal.str "99") := by
  decide

/-- C10 (amended): if no stored Value's attribute key is itself `lon` or `lat`
(otherwise that Value's string overrides the geometry entry) then the update
form's initial data maps `lon` to the stored geometry's x coordinate, `lat` to
its y coordinate, and — the value keys being unique by the (locality,
specification) constraint — each stored Value's attribute key to its data
string. -/
theorem c10_initial_prefill (loc : Locality)
    (hnodup : (loc.values.map Value.attrKey).Nodup)
    (hlon : ∀ v ∈ loc.values, v.attrKey ≠ "lon")
    (hlat : ∀ v ∈ loc.values, v.attrKey ≠ "lat") :
    dictGet (localityFormInitial loc) "lon" = some (InitVal.num loc.geom.x) ∧
    dictGet (localityFormInitial loc) "lat" = some (InitVal.num loc.geom.y) ∧
    ∀ v ∈ loc.values,
      dictGet (localityFormInitial loc) v.attrKey = some (InitVal.str v.data) := by
  refine ⟨?_, ?_, ?_⟩
  · unfold localityFormInitial
    rw [dictGet_foldl_values loc.values _ _ hlon]
    rfl
  · unfold localityFormInitial
    rw [dictGet_foldl_values loc.values _ _ hlat]
    simp [dictGet]
  · intro v hv
    exact dictGet_foldl_values_mem loc.values _ hnodup v hv

/-- C10 witness: for `locEx` at geometry (1, 2) with the single value row
`name = Clinic A`, the initial data is exactly that state. -/
theorem c10_initial_prefill_w :
    dictGet (localityFormInitial locEx) "lon" = some (InitVal.num 1) ∧
    dictGet (localityFormInitial locEx) "lat" = some (InitVal.num 2) ∧
    dictGet (localityFormInitial locEx) "name" = some (InitVal.str "Clinic A") := by
  have h := c10_initial_prefill locEx (by decide) (by decide) (by decide)
  exact ⟨h.1, h.2.1, h.2.2 ⟨"name", "Clinic A"⟩ (by decide)⟩

/-- C9: a GET on the clustered-map endpoint with a missing or unparsable bbox,
zoom or iconsize parameter, a zoom outside [0, 20], or a negative icon-size
component, answers 404 — uniformly in the clustering collaborator, which is
therefore never consulted. -/
theorem c9_layer_params (r : Request)
    (h : dictGet r.params "bbox" = none ∨ dictGet r.params "zoom" = none ∨
      dictGet r.params "iconsize" = none ∨
      (∃ s, dictGet r.params "bbox" = some s ∧ parse_bbox s = none) ∨
      (∃ s, dictGet r.params "zoom" = some s ∧ pyInt s = none) ∨
      (∃ s, dictGet r.params "iconsize" = some s ∧ parseIntList s = none) ∨
      (∃ s zz, dictGet r.params "zoom" = some s ∧ pyInt s = some zz ∧
        (zz < 0 ∨ zz > 20)) ∨
      (∃ s l x, dictGet r.params "iconsize" = some s ∧ parseIntList s = some l ∧
        x ∈ l ∧ x < 0)) :
    ∀ clusterFn, localitiesLayerGet clusterFn r = Except.error 404 := by
  have hparse : parseRequestParams r = none := by
    unfold parseRequestParams
    cases hb : dictGet r.params "bbox" with
    | none => rfl
    | some b =>
      cases hz : dictGet r.params "zoom" with
      | none => rfl
      | some z =>
        cases hi : dictGet r.params "iconsize" with
        | none => rfl
        | some i =>
          rcases h with h | h | h | ⟨s, hs, hp⟩ | ⟨s, hs, hp⟩ | ⟨s, hs, hp⟩ |
            ⟨s, zz, hs, hpz, hrange⟩ | ⟨s, l, x, hs, hpl, hx, hneg⟩
          · rw [hb] at h
            cases h
          · rw [hz] at h
            cases h
          · rw [hi] at h
            cases h
          · rw [hb] at hs
            injection hs with hsb
            subst hsb
            simp [hp]
          · rw [hz] at hs
            injection hs with hsz
            subst hsz
            cases hpb : parse_bbox b <;> simp [hpb, hp]
          · rw [hi] at hs
            injection hs with hsi
            subst hsi
            cases hpb : parse_bbox b <;> cases hpz2 : pyInt z <;>
              simp [hpb, hpz2, hp]
          · rw [hz] at hs
            injection hs with hsz
            subst hsz
            cases hpb : parse_bbox b with
            | none => simp [hpb]
            | some bb =>
              cases hpl2 : parseIntList i with
              | none => simp [hpb, hpz, hpl2]
              | some ll =>
                simp only [hpb, hpz, hpl2]
                rw [if_pos hrange]
          · rw [hi] at hs
            injection hs with hsi
            subst hsi
            cases hpb : parse_bbox b with
            | none => simp [hpb]
            | some bb =>
              cases hpz2 : pyInt z with
              | none => simp [hpb, hpz2]
              | some zz =>
                simp only [hpb, hpz2, hpl]
                by_cases hr : zz < 0 ∨ zz > 20
                · rw [if_pos hr]
                · rw [if_neg hr, if_pos]
                  exact List.any_eq_true.mpr ⟨x, hx, by simpa using hneg⟩
  intro clusterFn
  unfold localitiesLayerGet
  rw [hparse]

/-- C9 witness: a request carrying only a zoom answers 404 for the trivial
clustering collaborator. -/
theorem c9_layer_params_w :
    localitiesLayerGet (fun _ _ _ => []) ⟨[("zoom", "5")]⟩ = Except.error 404 :=
  c9_layer_params ⟨[("zoom", "5")]⟩ (Or.inl (by decide)) (fun _ _ _ => [])

/-! ## Form-validation lemmas -/

theorem mem_insertField_of_ne (fs : List FormField) (f g : FormField)
    (h : g.name ≠ f.name) (hf : f ∈ fs) : f ∈ insertField fs g := by
  unfold insertField
  by_cases hany : fs.any (fun e => decide (e.name = g.name)) = true
  · rw [if_pos hany]
    refine List.mem_map.mpr ⟨f, hf, ?_⟩
    rw [if_neg (fun hc => h hc.symm)]
  · rw [if_neg hany]
    exact List.mem_append_left _ hf

theorem self_mem_insertField (fs : List FormField) (g : FormField) :
    g ∈ insertField fs g := by
  unfold insertField
  by_cases hany : fs.any (fun e => decide (e.name = g.name)) = true
  · rw [if_pos hany]
    obtain ⟨e, he, hpe⟩ := List.any_eq_true.mp hany
    have hename : e.name = g.name := by simpa using hpe
    exact List.mem_map.mpr ⟨e, he, by rw [if_pos hename]⟩
  · rw [if_neg hany]
    exact List.mem_append_right _ (List.mem_singleton.mpr rfl)

theorem mem_foldl_insertField_preserve (specs : List Specification)
    (base : List FormField) (f : FormField) (hf : f ∈ base)
    (h : ∀ s ∈ specs, s.attrKey ≠ f.name) :
    f ∈ specs.foldl
      (fun fs s => insertField fs ⟨s.attrKey, FieldKind.char, s.required⟩) base := by
  induction specs generalizing base with
  | nil => exact hf
  | cons t rest ih =>
    rw [List.foldl_cons]
    exact ih _ (mem_insertField_of_ne _ _ _ (h t (by simp)) hf)
      (fun s hs => h s (by simp [hs]))

theorem spec_mem_foldl (specs : List Specification) (base : List FormField)
    (hnodup : (specs.map Specification.attrKey).Nodup) (s : Specification)
    (hs : s ∈ specs) :
    (⟨s.attrKey, FieldKind.char, s.required⟩ : FormField) ∈ specs.foldl
      (fun fs s => insertField fs ⟨s.attrKey, FieldKind.char, s.required⟩) base := by
  induction specs generalizing base with
  | nil => cases hs
  | cons t rest ih =>
    rw [List.map_cons, List.nodup_cons] at hnodup
    rw [List.foldl_cons]
    rcases List.mem_cons.mp hs with hst | hs2
    · subst hst
      exact mem_foldl_insertField_preserve rest _ _
        (self_mem_insertField base _)
        (fun u hu hc =>
          hnodup.1 ((show u.attrKey = s.attrKey from hc) ▸
            List.mem_map_of_mem Specification.attrKey hu))
    · exact ih _ hnodup.2 hs2

theorem spec_mem_domainFormFields (d : Domain)
    (hnodup : (d.specs.map Specification.attrKey).Nodup) (s : Specification)
    (hs : s ∈ d.specs) :
    (⟨s.attrKey, FieldKind.char, s.required⟩ : FormField) ∈ domainFormFields d :=
  spec_mem_foldl d.specs _ hnodup s hs

theorem float_mem_domainFormFields (d : Domain) (fname : String)
    (hbase : (⟨fname, FieldKind.floatNum, true⟩ : FormField)
      ∈ [(⟨"lon", FieldKind.floatNum, true⟩ : FormField),
        ⟨"lat", FieldKind.floatNum, true⟩])
    (hnoshadow : ∀ sp ∈ d.specs, sp.attrKey ≠ fname) :
    (⟨fname, FieldKind.floatNum, true⟩ : FormField) ∈ domainFormFields d :=
  mem_foldl_insertField_preserve d.specs _ _ hbase hnoshadow

theorem mem_fieldErrs_of (fields : List FormField) (data : List (String × String))
    (f : FormField) (hf : f ∈ fields) (e : String × String)
    (hc : cleanField data f = Except.error e) : e ∈ fieldErrs fields data := by
  induction fields with
  | nil => cases hf
  | cons g rest ih =>
    rcases List.mem_cons.mp hf with rfl | hf2
    · simp [fieldErrs, hc]
    · cases hcg : cleanField data g with
      | error e2 =>
        simp only [fieldErrs, hcg]
        exact List.mem_cons_of_mem _ (ih hf2)
      | ok o =>
        simp only [fieldErrs, hcg]
        exact ih hf2

theorem required_missing_err (fields : List FormField)
    (data : List (String × String)) (f : FormField) (hf : f ∈ fields)
    (hreq : f.required = true) (habs : dictGet data f.name = none) :
    (f.name, "required") ∈ fieldErrs fields data := by
  apply mem_fieldErrs_of fields data f hf
  simp [cleanField, habs, hreq]

theorem nonfinite_float_err (fields : List FormField)
    (data : List (String × String)) (fname s : String)
    (hf : (⟨fname, FieldKind.floatNum, true⟩ : FormField) ∈ fields)
    (hs : dictGet data fname = some s) (hp : pyFloatFinite s = none) :
    (fname, if s = "" then "required" else "invalid") ∈ fieldErrs fields data := by
  apply mem_fieldErrs_of fields data _ hf
  by_cases hse : s = ""
  · simp [cleanField, hs, hse]
  · simp [cleanField, hs, hse, hp]

theorem cleanField_key (data : List (String × String)) (f : FormField)
    (kv : String × CVal) (h : cleanField data f = Except.ok (some kv)) :
    kv.1 = f.name := by
  unfold cleanField at h
  cases hdg : dictGet data f.name with
  | none =>
    rw [hdg] at h
    cases hreq : f.required with
    | true => simp [hreq] at h
    | false =>
      cases hk : f.kind with
      | char =>
        simp [hreq, hk] at h
        simp [← h]
      | floatNum => simp [hreq, hk] at h
  | some s =>
    rw [hdg] at h
    by_cases hse : s = ""
    · cases hreq : f.required with
      | true => simp [hse, hreq] at h
      | false =>
        cases hk : f.kind with
        | char =>
          simp [hse, hreq, hk] at h
          simp [← h]
        | floatNum => simp [hse, hreq, hk] at h
    · cases hk : f.kind with
      | char =>
        simp [hse, hk] at h
        simp [← h]
      | floatNum =>
        cases hq : pyFloatFinite s with
        | none => simp [hse, hk, hq] at h
        | some q =>
          simp [hse, hk, hq] at h
          simp [← h]

theorem fieldCleaned_key (fields : List FormField) (data : List (String × String))
    (kv : String × CVal) (h : kv ∈ fieldCleaned fields data) :
    ∃ f ∈ fields, kv.1 = f.name := by
  induction fields with
  | nil => cases h
  | cons g rest ih =>
    cases hcg : cleanField data g with
    | error e =>
      simp only [fieldCleaned, hcg] at h
      obtain ⟨f, hf, hk⟩ := ih h
      exact ⟨f, List.mem_cons_of_mem _ hf, hk⟩
    | ok o =>
      cases o with
      | none =>
        simp only [fieldCleaned, hcg] at h
        obtain ⟨f, hf, hk⟩ := ih h
        exact ⟨f, List.mem_cons_of_mem _ hf, hk⟩
      | some kv2 =>
        simp only [fieldCleaned, hcg] at h
        rcases List.mem_cons.mp h with rfl | h2
        · exact ⟨g, List.mem_cons_self _ _, cleanField_key data g _ hcg⟩
        · obtain ⟨f, hf, hk⟩ := ih h2
          exact ⟨f, List.mem_cons_of_mem _ hf, hk⟩

theorem mem_charEntries (cleaned : List (String × CVal)) (k dta : String)
    (h : (k, dta) ∈ charEntries cleaned) : (k, CVal.str dta) ∈ cleaned := by
  induction cleaned with
  | nil => cases h
  | cons kv rest ih =>
    obtain ⟨k1, v1⟩ := kv
    by_cases hll : k1 = "lon" ∨ k1 = "lat"
    · simp only [charEntries, hll, if_true] at h
      exact List.mem_cons_of_mem _ (ih h)
    · cases v1 with
      | num q =>
        simp only [charEntries, hll, if_false] at h
        exact List.mem_cons_of_mem _ (ih h)
      | str s =>
        simp only [charEntries, hll, if_false] at h
        rcases List.mem_cons.mp h with heq | h2
        · have hk : k = k1 := congrArg Prod.fst heq
          have hs : dta = s := congrArg Prod.snd heq
          subst hk
          subst hs
          exact List.mem_cons_self _ _
        · exact List.mem_cons_of_mem _ (ih h2)

theorem mem_upsertValue (vals : List Value) (kv : String × String) (v : Value)
    (h : v ∈ upsertValue vals kv) : v ∈ vals ∨ v = ⟨kv.1, kv.2⟩ := by
  unfold upsertValue at h
  by_cases hany : vals.any (fun u => decide (u.attrKey = kv.1)) = true
  · rw [if_pos hany] at h
    obtain ⟨u, hu, heq⟩ := List.mem_map.mp h
    by_cases huk : u.attrKey = kv.1
    · right
      rw [if_pos huk] at heq
      exact heq.symm
    · left
      rw [if_neg huk] at heq
      exact heq ▸ hu
  · rw [if_neg hany] at h
    rcases List.mem_append.mp h with h2 | h2
    · exact Or.inl h2
    · exact Or.inr (List.mem_singleton.mp h2)

theorem mem_setValues (vals : List Value) (entries : List (String × String))
    (v : Value) (h : v ∈ setValues vals entries) :
    v ∈ vals ∨ ∃ kv ∈ entries, v = ⟨kv.1, kv.2⟩ := by
  induction entries generalizing vals with
  | nil => exact Or.inl h
  | cons kv rest ih =>
    rcases ih (upsertValue vals kv) h with h2 | ⟨u, hu, hv⟩
    · rcases mem_upsertValue vals kv v h2 with h3 | h3
      · exact Or.inl h3
      · exact Or.inr ⟨kv, List.mem_cons_self _ _, h3⟩
    · exact Or.inr ⟨u, List.mem_cons_of_mem _ hu, hv⟩

theorem createPost_invalid (st : Store) (domains : List Domain) (dname : String)
    (d : Domain) (data : List (String × String)) (uuid : String) (user : Nat)
    (failAt : Option Nat)
    (hd : localityCreateGetObject domains dname = Except.ok d)
    (hne : fieldErrs (domainFormFields d) data ≠ []) :
    localityCreatePost st domains dname data uuid user failAt
      = (st, Except.error (Err.validationFailed
          (fieldErrs (domainFormFields d) data))) := by
  unfold localityCreatePost
  rw [hd]
  cases hE : fieldErrs (domainFormFields d) data with
  | nil => exact absurd hE hne
  | cons e es => simp only [formClean, hE]

theorem updatePost_invalid (st : Store) (loc : Locality)
    (data : List (String × String)) (user : Nat)
    (hne : fieldErrs (localityFormFields loc) data ≠ []) :
    localityUpdatePost st loc data user
      = (st, Except.error (Err.validationFailed
          (fieldErrs (localityFormFields loc) data))) := by
  unfold localityUpdatePost
  cases hE : fieldErrs (localityFormFields loc) data with
  | nil => exact absurd hE hne
  | cons e es => simp only [formClean, hE]

theorem formClean_ok_cleaned (fields : List FormField)
    (data : List (String × String)) (cleaned : List (String × CVal))
    (h : formClean fields data = Except.ok cleaned) :
    cleaned = fieldCleaned fields data := by
  unfold formClean at h
  cases hE : fieldErrs fields data with
  | nil =>
    rw [hE] at h
    exact (Except.ok.injEq .. ▸ h).symm
  | cons e es =>
    rw [hE] at h
    cases h

/-- C3 counterexample: a create whose input carries the key `extra`, absent
from the hospital domain's specification set, does not fail with a validation
error — it succeeds and persists the locality (the extra key is silently
ignored). -/
theorem c3_extra_key_cex :
    localityCreatePost stEx [dEx] "hospital"
      [("lon", "10"), ("lat", "20"), ("name", "A"), ("extra", "x")] "u1" 7 none
      = (⟨[⟨0, some 7⟩], [⟨"u1", webTag ++ "u1", dEx, ⟨10, 20⟩, 0, 1,
          [⟨"name", "A"⟩, ⟨"beds", ""⟩]⟩], 1⟩, Except.ok "u1") := by
  decide

/-- C3 (amended): on create and on update, an input mapping that omits a key
whose Specification is marked required fails with ValidationFailed naming that
key and leaves the store untouched; a key not present in the Domain's
Specification set is not rejected but ignored — it never enters the cleaned
data, never reaches `set_values`, and no Value row is written for it. -/
theorem c3_validation :
    (∀ st domains dname d data uuid user failAt s,
      localityCreateGetObject domains dname = Except.ok d →
      (d.specs.map Specification.attrKey).Nodup →
      s ∈ d.specs → s.required = true → dictGet data s.attrKey = none →
      localityCreatePost st domains dname data uuid user failAt
        = (st, Except.error (Err.validationFailed
            (fieldErrs (domainFormFields d) data))) ∧
      (s.attrKey, "required") ∈ fieldErrs (domainFormFields d) data) ∧
    (∀ st loc data user s,
      (loc.domain.specs.map Specification.attrKey).Nodup →
      s ∈ loc.domain.specs → s.required = true →
      dictGet data s.attrKey = none →
      localityUpdatePost st loc data user
        = (st, Except.error (Err.validationFailed
            (fieldErrs (localityFormFields loc) data))) ∧
      (s.attrKey, "required") ∈ fieldErrs (localityFormFields loc) data) ∧
    (∀ d data k cleaned, (∀ f ∈ domainFormFields d, f.name ≠ k) →
      formClean (domainFormFields d) data = Except.ok cleaned →
      (∀ v, (k, v) ∉ cleaned) ∧ (∀ dta, (k, dta) ∉ charEntries cleaned) ∧
      (∀ val ∈ setValues [] (charEntries cleaned), val.attrKey ≠ k)) := by
  refine ⟨?_, ?_, ?_⟩
  · intro st domains dname d data uuid user failAt s hd hnodup hs hreq habs
    have hmem : (s.attrKey, "required") ∈ fieldErrs (domainFormFields d) data :=
      required_missing_err _ data _ (spec_mem_domainFormFields d hnodup s hs)
        (by simpa using hreq) (by simpa using habs)
    have hne : fieldErrs (domainFormFields d) data ≠ [] := by
      intro hE
      rw [hE] at hmem
      cases hmem
    exact ⟨createPost_invalid st domains dname d data uuid user failAt hd hne, hmem⟩
  · intro st loc data user s hnodup hs hreq habs
    have hmem : (s.attrKey, "required") ∈ fieldErrs (localityFormFields loc) data :=
      required_missing_err _ data _
        (spec_mem_domainFormFields loc.domain hnodup s hs)
        (by simpa using hreq) (by simpa using habs)
    have hne : fieldErrs (localityFormFields loc) data ≠ [] := by
      intro hE
      rw [hE] at hmem
      cases hmem
    exact ⟨updatePost_invalid st loc data user hne, hmem⟩
  · intro d data k cleaned hk hclean
    have hcl : cleaned = fieldCleaned (domainFormFields d) data :=
      formClean_ok_cleaned _ _ _ hclean
    have hnotin : ∀ v, (k, v) ∉ cleaned := by
      intro v hmem
      rw [hcl] at hmem
      obtain ⟨f, hf, hkey⟩ := fieldCleaned_key _ _ _ hmem
      exact hk f hf hkey.symm
    refine ⟨hnotin, ?_, ?_⟩
    · intro dta hmem
      exact hnotin (CVal.str dta) (mem_charEntries cleaned k dta hmem)
    · intro val hval hkey
      rcases mem_setValues [] (charEntries cleaned) val hval with h2 | ⟨kv, hkv, hv⟩
      · cases h2
      · have : (k, kv.2) ∈ charEntries cleaned := by
          have hk1 : kv.1 = k := by
            rw [hv] at hkey
            exact hkey
          rw [← hk1]
          exact hkv
        exact hnotin (CVal.str kv.2) (mem_charEntries cleaned k kv.2 this)

/-- C3 witness: omitting the required `name` on create and on update yields the
validation error naming `name` with the store untouched, and the extra key
`extra` of the counterexample's input never enters the cleaned data nor the
written value rows. -/
theorem c3_validation_w :
    (localityCreatePost stEx [dEx] "hospital" [("lon", "10"), ("lat", "20")]
        "u1" 7 none
      = (stEx, Except.error (Err.validationFailed
          (fieldErrs (domainFormFields dEx) [("lon", "10"), ("lat", "20")]))) ∧
      ("name", "required")
        ∈ fieldErrs (domainFormFields dEx) [("lon", "10"), ("lat", "20")]) ∧
    (localityUpdatePost stEx locEx [("lon", "1"), ("lat", "2")] 7
      = (stEx, Except.error (Err.validationFailed
          (fieldErrs (localityFormFields locEx) [("lon", "1"), ("lat", "2")]))) ∧
      ("name", "required")
        ∈ fieldErrs (localityFormFields locEx) [("lon", "1"), ("lat", "2")]) ∧
    (("extra", CVal.str "x") ∉ fieldCleaned (domainFormFields dEx)
        [("lon", "10"), ("lat", "20"), ("name", "A"), ("extra", "x")] ∧
      (⟨"extra", "x"⟩ : Value) ∉ setValues []
        (charEntries (fieldCleaned (domainFormFields dEx)
          [("lon", "10"), ("lat", "20"), ("name", "A"), ("extra", "x")]))) := by
  refine ⟨?_, ?_, ?_⟩
  · exact c3_validation.1 stEx [dEx] "hospital" dEx [("lon", "10"), ("lat", "20")]
      "u1" 7 none ⟨"name", true⟩ (by decide) (by decide) (by decide) (by decide)
      (by decide)
  · exact c3_validation.2.1 stEx locEx [("lon", "1"), ("lat", "2")] 7
      ⟨"name", true⟩ (by decide) (by decide) (by decide) (by decide)
  · have h := c3_validation.2.2 dEx
      [("lon", "10"), ("lat", "20"), ("name", "A"), ("extra", "x")] "extra"
      (fieldCleaned (domainFormFields dEx)
        [("lon", "10"), ("lat", "20"), ("name", "A"), ("extra", "x")])
      (by decide) (by decide)
    exact ⟨h.1 (CVal.str "x"), fun hmem => h.2.2 ⟨"extra", "x"⟩ hmem rfl⟩

/-- C8 counterexample: against the domain `dLon`, whose specification set
contains an attribute named `lon`, the form field `lon` is a CharField (the
specification loop overwrites the FloatField), so a create submitting the
non-coordinate `lon = abc` does not fail with ValidationFailed — validation
passes and the failure surfaces as a write-time error instead. -/
theorem c8_nonfinite_cex :
    localityCreatePost stEx [dLon] "odd" [("lon", "abc"), ("lat", "2")] "u1" 7 none
      = (stEx, Except.error Err.writeFailed) := by
  decide

/-- C8 (amended): on create and on update, for either geometry field (`lon` or
`lat`), provided the Domain's specification set does not itself contain an
attribute of that name (such an attribute replaces the FloatField with a plain
CharField and a non-numeric value then surfaces as a write-time failure), a
present raw value that is not a valid finite coordinate makes the operation
fail with ValidationFailed identifying the offending key (`invalid` for a
non-empty unparsable or non-finite value, `required` for an empty one), with
the store untouched. -/
theorem c8_geometry_validation :
    (∀ st domains dname d data uuid user failAt fname s,
      localityCreateGetObject domains dname = Except.ok d →
      (fname = "lon" ∨ fname = "lat") →
      (∀ sp ∈ d.specs, sp.attrKey ≠ fname) →
      dictGet data fname = some s → pyFloatFinite s = none →
      localityCreatePost st domains dname data uuid user failAt
        = (st, Except.error (Err.validationFailed
            (fieldErrs (domainFormFields d) data))) ∧
      (fname, if s = "" then "required" else "invalid")
        ∈ fieldErrs (domainFormFields d) data) ∧
    (∀ st loc data user fname s,
      (fname = "lon" ∨ fname = "lat") →
      (∀ sp ∈ loc.domain.specs, sp.attrKey ≠ fname) →
      dictGet data fname = some s → pyFloatFinite s = none →
      localityUpdatePost st loc data user
        = (st, Except.error (Err.validationFailed
            (fieldErrs (localityFormFields loc) data))) ∧
      (fname, if s = "" then "required" else "invalid")
        ∈ fieldErrs (localityFormFields loc) data) := by
  constructor
  · intro st domains dname d data uuid user failAt fname s hd hfn hsh hs hp
    have hmem : (fname, if s = "" then "required" else "invalid")
        ∈ fieldErrs (domainFormFields d) data :=
      nonfinite_float_err _ data fname s
        (float_mem_domainFormFields d fname
          (by rcases hfn with rfl | rfl <;> simp) hsh) hs hp
    have hne2 : fieldErrs (domainFormFields d) data ≠ [] := by
      intro hE
      rw [hE] at hmem
      cases hmem
    exact ⟨createPost_invalid st domains dname d data uuid user failAt hd hne2,
      hmem⟩
  · intro st loc data user fname s hfn hsh hs hp
    have hmem : (fname, if s = "" then "required" else "invalid")
        ∈ fieldErrs (localityFormFields loc) data :=
      nonfinite_float_err _ data fname s
        (float_mem_domainFormFields loc.domain fname
          (by rcases hfn with rfl | rfl <;> simp) hsh) hs hp
    have hne2 : fieldErrs (localityFormFields loc) data ≠ [] := by
      intro hE
      rw [hE] at hmem
      cases hmem
    exact ⟨updatePost_invalid st loc data user hne2, hmem⟩

/-- C8 witness: a create with `lat = nan`, a create with an empty `lon`, and an
update with `lon = abc` each fail validation with the error on the offending
geometry key and an untouched store. -/
theorem c8_geometry_validation_w :
    (localityCreatePost stEx [dEx] "hospital"
        [("lon", "10"), ("lat", "nan"), ("name", "A")] "u1" 7 none
      = (stEx, Except.error (Err.validationFailed (fieldErrs
          (domainFormFields dEx) [("lon", "10"), ("lat", "nan"), ("name", "A")]))) ∧
      ("lat", "invalid") ∈ fieldErrs (domainFormFields dEx)
        [("lon", "10"), ("lat", "nan"), ("name", "A")]) ∧
    (localityCreatePost stEx [dEx] "hospital"
        [("lon", ""), ("lat", "2"), ("name", "A")] "u1" 7 none
      = (stEx, Except.error (Err.validationFailed (fieldErrs
          (domainFormFields dEx) [("lon", ""), ("lat", "2"), ("name", "A")]))) ∧
      ("lon", "required") ∈ fieldErrs (domainFormFields dEx)
        [("lon", ""), ("lat", "2"), ("name", "A")]) ∧
    (localityUpdatePost stEx locEx [("lon", "abc"), ("lat", "2"), ("name", "B")] 7
      = (stEx, Except.error (Err.validationFailed (fieldErrs
          (localityFormFields locEx)
          [("lon", "abc"), ("lat", "2"), ("name", "B")]))) ∧
      ("lon", "invalid") ∈ fieldErrs (localityFormFields locEx)
        [("lon", "abc"), ("lat", "2"), ("name", "B")]) := by
  refine ⟨?_, ?_, ?_⟩
  · exact c8_geometry_validation.1 stEx [dEx] "hospital" dEx
      [("lon", "10"), ("lat", "nan"), ("name", "A")] "u1" 7 none "lat" "nan"
      (by decide) (Or.inr rfl) (by decide) (by decide) (by decide)
  · exact c8_geometry_validation.1 stEx [dEx] "hospital" dEx
      [("lon", ""), ("lat", "2"), ("name", "A")] "u1" 7 none "lon" ""
      (by decide) (Or.inl rfl) (by decide) (by decide) (by decide)
  · exact c8_geometry_validation.2 stEx locEx
      [("lon", "abc"), ("lat", "2"), ("name", "B")] 7 "lon" "abc"
      (Or.inl rfl) (by decide) (by decide) (by decide)

end Healthsites
